import Mathlib

/-
Verification of the buraki blog core: the specification combinator
(src/buraki/core/common.py) and the blog domain model
(src/buraki/core/blog.py), embedded shallowly.
-/

namespace Buraki

/-- Category enumeration from src/buraki/core/blog.py (IT, BUSINESS, SPORT). -/
inductive Category where
  | it
  | business
  | sport
deriving DecidableEq, Repr

/-- Python datetime.datetime values are totally ordered; modelled as Int. -/
abbrev DateTime := Int

/-- Post value object from src/buraki/core/blog.py, with UUID modelled as Nat.
The tags field holds the contents of the stored tag list. -/
structure Post where
  post_id : Nat
  category : Category
  published_at : DateTime
  title : String
  content : String
  tags : List String
  likes : Int
  dislikes : Int
deriving DecidableEq, Repr

/-- Post.__eq__: true iff the other value is a Post with the same identifier
(the `self is other` branch implies equal identifiers). -/
def Post.eq (p q : Post) : Bool :=
  decide (p.post_id = q.post_id)

/-- A filter value as carried in a specification's filter tuple.  The `tags`
variant holds a whole reference-tags tuple as one element, mirroring
`(self._reference_tags,)`; the `tag` variant is a single tag string, needed
only to express a flat list of tags. -/
inductive FilterValue where
  | cat (c : Category)
  | time (t : DateTime)
  | tags (ts : List String)
  | tag (s : String)
deriving DecidableEq, Repr

/-- Specification trees over Post: the three leaf specifications of
src/buraki/core/blog.py, an arbitrary leaf standing for any other
ISpecification implementation (its filter tuple and its predicate), and the
three composites of src/buraki/core/common.py. -/
inductive Spec where
  | postCategorySpec (reference_category : Category)
  | postPublishedAtSpec (published_from published_to : DateTime)
  | postTagsSpec (reference_tags : List String)
  | leaf (filters : List FilterValue) (pred : Post → Bool)
  | andSpec (left right : Spec)
  | orSpec (left right : Spec)
  | notSpec (inner : Spec)

/-- get_filters of every specification class:
PostCategorySpecification returns `(self._reference_category,)`,
PostPublishedAtSpecification returns `(self._published_from, self._published_to)`,
PostTagsSpecification returns `(self._reference_tags,)` (a one-element tuple
holding the reference-tags tuple), And/Or concatenate the children's filters,
Not passes the inner filters through. -/
def Spec.get_filters : Spec → List FilterValue
  | .postCategorySpec c => [.cat c]
  | .postPublishedAtSpec f t => [.time f, .time t]
  | .postTagsSpec ts => [.tags ts]
  | .leaf fs _ => fs
  | .andSpec l r => l.get_filters ++ r.get_filters
  | .orSpec l r => l.get_filters ++ r.get_filters
  | .notSpec s => s.get_filters

/-- is_satisfied_by of every specification class:
PostCategorySpecification tests `candidate.category == self._reference_category`,
PostPublishedAtSpecification tests
`self._published_from <= candidate.published_at <= self._published_to`,
PostTagsSpecification tests `any(t in candidate.tags for t in self._reference_tags)`
(candidate.tags is a copy of the stored list, equal in contents),
And is conjunction, Or is disjunction, Not is negation. -/
def Spec.is_satisfied_by : Spec → Post → Bool
  | .postCategorySpec rc, c => decide (c.category = rc)
  | .postPublishedAtSpec f t, c => decide (f ≤ c.published_at) && decide (c.published_at ≤ t)
  | .postTagsSpec ts, c => ts.any (fun rt => c.tags.contains rt)
  | .leaf _ p, c => p c
  | .andSpec l r, c => l.is_satisfied_by c && r.is_satisfied_by c
  | .orSpec l r, c => l.is_satisfied_by c || r.is_satisfied_by c
  | .notSpec s, c => !(s.is_satisfied_by c)

/-- The flat filter list the spec describes for PostTagsSpecification: one
filter entry per constructor argument, in order. -/
def flatTagFilters (ts : List String) : List FilterValue :=
  ts.map FilterValue.tag

/-- The Python heap of string lists, for the aliasing behaviour of the tags
property: an address is an index into the heap. -/
abbrev Heap := List (List String)

/-- Post with its `_tags` slot modelled as a heap address, mirroring that the
Python object stores a reference to a mutable list. -/
structure HPost where
  post_id : Nat
  category : Category
  published_at : DateTime
  title : String
  content : String
  tagsAddr : Nat
  likes : Int
  dislikes : Int

/-- The `Post.tags` property, `return self._tags.copy()`: allocates a fresh
list with the same contents and returns the new heap and its address. -/
def HPost.tagsRead (h : Heap) (p : HPost) : Heap × Nat :=
  (h ++ [h.getD p.tagsAddr []], h.length)

/-- In-place mutation of the list stored at an address. -/
def Heap.write (h : Heap) (a : Nat) (l : List String) : Heap :=
  h.set a l

end Buraki

namespace Buraki

/-- C1: for all specifications A, B and candidates x, the composite
evaluation is the boolean combination of the children's evaluations:
And is `&&`, Or is `||`, Not is `!`. -/
theorem composite_satisfaction (A B : Spec) (x : Post) :
    (Spec.andSpec A B).is_satisfied_by x = (A.is_satisfied_by x && B.is_satisfied_by x) ∧
    (Spec.orSpec A B).is_satisfied_by x = (A.is_satisfied_by x || B.is_satisfied_by x) ∧
    (Spec.notSpec A).is_satisfied_by x = !(A.is_satisfied_by x) :=
  ⟨rfl, rfl, rfl⟩

/-- C3: the filter list of And(A,B) and Or(A,B) is A's filters followed by
B's, and Not(A) passes A's filters through unchanged. -/
theorem composite_filters (A B : Spec) :
    (Spec.andSpec A B).get_filters = A.get_filters ++ B.get_filters ∧
    (Spec.orSpec A B).get_filters = A.get_filters ++ B.get_filters ∧
    (Spec.notSpec A).get_filters = A.get_filters :=
  ⟨rfl, rfl, rfl⟩

/-- C5: double negation is the identity on evaluation. -/
theorem double_negation (A : Spec) (x : Post) :
    (Spec.notSpec (Spec.notSpec A)).is_satisfied_by x = A.is_satisfied_by x := by
  simp [Spec.is_satisfied_by]

/-- C4: two Posts are equal (Post.__eq__) iff their identifiers are equal,
regardless of every other field. -/
theorem post_eq_iff_id (p q : Post) :
    Post.eq p q = true ↔ p.post_id = q.post_id := by
  simp [Post.eq]

/-- C2 counterexample: the filter list of PostTagsSpecification("go","rust")
is not the flat list ("go","rust"); it is the one-element tuple holding the
reference-tags tuple. -/
theorem tags_filters_not_flat :
    (Spec.postTagsSpec ["go", "rust"]).get_filters ≠ flatTagFilters ["go", "rust"] := by
  decide

/-- C2 amended: PostCategorySpecification and PostPublishedAtSpecification
return exactly their constructor arguments as a flat filter list in
constructor-argument order; PostTagsSpecification returns a one-element
filter list whose sole element is the whole reference-tags tuple. -/
theorem leaf_filters (c : Category) (f t : DateTime) (ts : List String) :
    (Spec.postCategorySpec c).get_filters = [FilterValue.cat c] ∧
    (Spec.postPublishedAtSpec f t).get_filters = [FilterValue.time f, FilterValue.time t] ∧
    (Spec.postTagsSpec ts).get_filters = [FilterValue.tags ts] :=
  ⟨rfl, rfl, rfl⟩

/-- C6: a tags specification is satisfied exactly when at least one of its
reference tags occurs in the candidate's tag list (OR semantics). -/
theorem tags_satisfaction (ts : List String) (x : Post) :
    (Spec.postTagsSpec ts).is_satisfied_by x = true ↔ ∃ t ∈ ts, t ∈ x.tags := by
  simp [Spec.is_satisfied_by, List.any_eq_true]

/-- C7: the conjunction of a category specification and a published-at
specification is satisfied exactly by posts of that category whose
publication timestamp lies in the closed interval. -/
theorem and_category_published (c : Category) (t0 t1 : DateTime) (x : Post) :
    (Spec.andSpec (Spec.postCategorySpec c) (Spec.postPublishedAtSpec t0 t1)).is_satisfied_by x
      = true ↔ x.category = c ∧ t0 ≤ x.published_at ∧ x.published_at ≤ t1 := by
  simp [Spec.is_satisfied_by, and_assoc]

/-- C9: a tags specification constructed with zero reference tags is
satisfied by no post. -/
theorem empty_tags_unsatisfiable (x : Post) :
    (Spec.postTagsSpec []).is_satisfied_by x = false :=
  rfl

/-- C10: when published_from is strictly greater than published_to, the
published-at specification is satisfied by no post. -/
theorem empty_interval_unsatisfiable (t0 t1 : DateTime) (h : t1 < t0) (x : Post) :
    (Spec.postPublishedAtSpec t0 t1).is_satisfied_by x = false := by
  rcases le_or_lt t0 x.published_at with hx | hx
  · have hx2 : ¬ x.published_at ≤ t1 := not_le.mpr (lt_of_lt_of_le h hx)
    simp [Spec.is_satisfied_by, hx2]
  · have hx2 : ¬ t0 ≤ x.published_at := not_le.mpr hx
    simp [Spec.is_satisfied_by, hx2]

/-- Witness for C10 at the concrete interval [5, 3] and a concrete post. -/
theorem empty_interval_unsatisfiable_witness :
    (5 : Int) > 3 ∧
    (Spec.postPublishedAtSpec 5 3).is_satisfied_by
      ⟨0, Category.it, 4, "t", "c", [], 0, 0⟩ = false :=
  ⟨by decide, empty_interval_unsatisfiable 5 3 (by decide) ⟨0, Category.it, 4, "t", "c", [], 0, 0⟩⟩

/-- C8: reading the tags property returns, at a fresh address, a list equal
in contents to the stored tag list but distinct from it, so writing through
the returned address leaves the post's stored tag list unchanged (the post
record itself is a pure value, untouched by heap writes). -/
theorem tags_defensive_copy (h : Heap) (p : HPost) (hv : p.tagsAddr < h.length)
    (l : List String) :
    (HPost.tagsRead h p).1.getD (HPost.tagsRead h p).2 [] = h.getD p.tagsAddr [] ∧
    (HPost.tagsRead h p).2 ≠ p.tagsAddr ∧
    (Heap.write (HPost.tagsRead h p).1 (HPost.tagsRead h p).2 l).getD p.tagsAddr []
      = h.getD p.tagsAddr [] := by
  refine ⟨?_, ?_, ?_⟩
  · simp [HPost.tagsRead, List.getD]
  · simp [HPost.tagsRead]
    omega
  · simp [HPost.tagsRead, Heap.write, List.getD]
    rw [List.getElem?_append_left hv]

/-- Witness for C8 on the one-cell heap [["a"]], a post whose tags live at
address 0, and the mutation that overwrites the copy with ["b"]. -/
theorem tags_defensive_copy_witness :
    (0 < ([["a"]] : Heap).length) ∧
    ((HPost.tagsRead [["a"]] ⟨0, Category.it, 0, "t", "c", 0, 0, 0⟩).1.getD
        (HPost.tagsRead [["a"]] ⟨0, Category.it, 0, "t", "c", 0, 0, 0⟩).2 []
      = ([["a"]] : Heap).getD 0 [] ∧
    (HPost.tagsRead [["a"]] ⟨0, Category.it, 0, "t", "c", 0, 0, 0⟩).2 ≠ 0 ∧
    (Heap.write (HPost.tagsRead [["a"]] ⟨0, Category.it, 0, "t", "c", 0, 0, 0⟩).1
        (HPost.tagsRead [["a"]] ⟨0, Category.it, 0, "t", "c", 0, 0, 0⟩).2 ["b"]).getD 0 []
      = ([["a"]] : Heap).getD 0 []) :=
  ⟨by decide, tags_defensive_copy [["a"]] ⟨0, Category.it, 0, "t", "c", 0, 0, 0⟩ (by decide) ["b"]⟩

end Buraki
